import Mathlib

/-!
Shallow embedding of the phone-number validation and batch-processing
pipeline of src/script.js, together with theorems settling the frozen
claims about it.

JavaScript strings are modelled as List Char. The file first gives the
definitions translated from the source, then the theorems.
-/

/-! ## Basic JavaScript string operations -/

/-- Model of the JavaScript s.substring(a, b): the characters at indices
a, a+1, ..., b-1 (for 0 <= a <= b <= s.length, the only way it is used
in the source). -/
def jsSubstring (s : List Char) (a b : Nat) : List Char :=
  (s.take b).drop a

/-- Characters treated as whitespace by the model of String.prototype.trim.
The ASCII whitespace characters are the only ones relevant here, since the
input lines come from splitting file text on the newline character. -/
def isJsSpace (c : Char) : Bool :=
  c == ' ' || c == '\t' || c == '\n' || c == '\r' || c == '\x0b' || c == '\x0c'

/-- Model of the JavaScript s.trim(): remove leading and trailing
whitespace. -/
def jsTrim (s : List Char) : List Char :=
  ((s.dropWhile isJsSpace).reverse.dropWhile isJsSpace).reverse

/-- Model of the JavaScript content.split(newline) used at line 135 of
src/script.js: splitting any string on the newline character, yielding at
least one (possibly empty) part. -/
def splitNl : List Char → List (List Char)
  | [] => [[]]
  | c :: rest =>
    if c = '\n' then [] :: splitNl rest
    else
      match splitNl rest with
      | [] => [[c]]
      | l :: ls => (c :: l) :: ls

/-! ## Validator (src/script.js lines 248-275) -/

/-- Modelled from the spec: isValidAreaCode is called at line 257 of
src/script.js but its definition is absent from the source. Spec section
4.2 rule 3 describes the area-code plausibility check as the same
constraint family as the leading-digit rule and prescribes the permissive
NANP structural check when the actual directory is unknown: the first
digit of the 3-character area code is neither 0 nor 1. -/
def isValidAreaCode (areaCode : List Char) : Bool :=
  !(areaCode.getD 0 ' ' == '0') && !(areaCode.getD 0 ' ' == '1')

/-- The regex at line 265 of src/script.js, anchored at both ends:
a digit followed by nine backreference repetitions of it, so it matches
exactly the 10-character strings whose characters are all the same digit. -/
def allSameDigitPattern (s : List Char) : Bool :=
  match s with
  | [] => false
  | c :: rest => c.isDigit && rest.length == 9 && rest.all (· == c)

/-- The regex at line 266 of src/script.js, anchored at both ends: it
matches exactly the literal string 1234567890. -/
def sequentialPattern (s : List Char) : Bool :=
  s == "1234567890".data

/-- The regex at line 267 of src/script.js, anchored at both ends: a
group of three digits followed by two backreference repetitions of the
same captured text, so it matches exactly the 9-character strings of the
form t ++ t ++ t where t is three digits. -/
def repeatedTripletPattern (s : List Char) : Bool :=
  s.length == 9 && (s.take 3).all Char.isDigit &&
    s.take 3 == jsSubstring s 3 6 && s.take 3 == s.drop 6

/-- Embedding of isValidUSNumber (src/script.js lines 248-275). The loop
over the invalidPatterns array, returning false on the first match, is the
disjunction of the three pattern tests. -/
def isValidUSNumber (number : List Char) : Bool :=
  if number.length != 10 then false
  else if number.getD 0 ' ' == '0' || number.getD 0 ' ' == '1' then false
  else if !(isValidAreaCode (jsSubstring number 0 3)) then false
  else if (jsSubstring number 3 6).getD 0 ' ' == '0' ||
          (jsSubstring number 3 6).getD 0 ' ' == '1' then false
  else if allSameDigitPattern number || sequentialPattern number ||
          repeatedTripletPattern number then false
  else true

/-- Variant of isValidUSNumber with the sequential anti-pattern test
(line 266 of src/script.js) removed, otherwise identical. -/
def isValidUSNumberNoSeq (number : List Char) : Bool :=
  if number.length != 10 then false
  else if number.getD 0 ' ' == '0' || number.getD 0 ' ' == '1' then false
  else if !(isValidAreaCode (jsSubstring number 0 3)) then false
  else if (jsSubstring number 3 6).getD 0 ' ' == '0' ||
          (jsSubstring number 3 6).getD 0 ' ' == '1' then false
  else if allSameDigitPattern number || repeatedTripletPattern number then false
  else true

/-- Variant of isValidUSNumber with the repeated-triplet anti-pattern test
(line 267 of src/script.js) removed, otherwise identical. -/
def isValidUSNumberNoTriplet (number : List Char) : Bool :=
  if number.length != 10 then false
  else if number.getD 0 ' ' == '0' || number.getD 0 ' ' == '1' then false
  else if !(isValidAreaCode (jsSubstring number 0 3)) then false
  else if (jsSubstring number 3 6).getD 0 ' ' == '0' ||
          (jsSubstring number 3 6).getD 0 ' ' == '1' then false
  else if allSameDigitPattern number || sequentialPattern number then false
  else true

/-! ## Normalizer (src/script.js lines 230-245) -/

/-- Embedding of cleanPhoneNumber (src/script.js lines 230-245):
remove every non-digit character, optionally drop a leading country-code
digit from an 11-digit result, then keep only the last 10 characters. -/
def cleanPhoneNumber (number : List Char) (removePlusOne : Bool) : List Char :=
  let cleaned := number.filter Char.isDigit
  let cleaned :=
    if removePlusOne && cleaned.length == 11 && cleaned.getD 0 ' ' == '1'
    then cleaned.drop 1 else cleaned
  if cleaned.length > 10 then cleaned.drop (cleaned.length - 10) else cleaned

/-! ## Classifier and aggregate state (src/script.js lines 1-15, 191-227) -/

/-- Modelled from the spec: getStateFromAreaCode is called at line 198 of
src/script.js but the static area-code directory is absent from the
source. Spec section 4.3 describes a read-only table of roughly 300
entries mapping 3-digit area codes to state labels, with unassigned codes
mapping to a sentinel label. A representative fragment of the table is
modelled here; no claim depends on the exact contents of the table. -/
def getStateFromAreaCode (areaCode : List Char) : String :=
  if areaCode == "202".data then "District of Columbia"
  else if areaCode == "205".data then "Alabama"
  else if areaCode == "212".data then "New York"
  else if areaCode == "214".data then "Texas"
  else if areaCode == "612".data then "Minnesota"
  else "Unknown"

/-- One classified record, as pushed into processedResults.valid or
processedResults.invalid (src/script.js lines 200-206 and 220-224).
The areaCode and state fields are present only on valid records. -/
structure NumRecord where
  original : List Char
  cleaned : List Char
  areaCode : Option (List Char)
  state : Option String
  statusValid : Bool
deriving DecidableEq

/-- The stats object of processedResults (src/script.js lines 9-14).
The JavaScript Set of states is modelled as an insertion-ordered
duplicate-free list. -/
structure Stats where
  total : Nat
  valid : Nat
  invalid : Nat
  states : List String
deriving DecidableEq

/-- The processedResults object (src/script.js lines 5-15). The byState
object is modelled as an insertion-ordered association list, matching the
key ordering of a JavaScript object with non-numeric string keys. -/
structure Results where
  valid : List NumRecord
  invalid : List NumRecord
  byState : List (String × List NumRecord)
  stats : Stats
deriving DecidableEq

/-- The processedResults value built by resetProcessingState
(src/script.js lines 354-367). -/
def emptyResults : Results :=
  { valid := [], invalid := [], byState := [],
    stats := { total := 0, valid := 0, invalid := 0, states := [] } }

/-- Model of adding an element to the JavaScript Set stats.states:
append it if it is not already present. -/
def addToSet (l : List String) (s : String) : List String :=
  if s ∈ l then l else l ++ [s]

/-- Model of the byState update at lines 213-218 of src/script.js:
push the record onto the entry for the state, creating the entry (at the
end, in key insertion order) if it is absent. -/
def pushByState (m : List (String × List NumRecord)) (state : String)
    (r : NumRecord) : List (String × List NumRecord) :=
  match m with
  | [] => [(state, [r])]
  | (s, rs) :: rest =>
    if s = state then (s, rs ++ [r]) :: rest
    else (s, rs) :: pushByState rest state r

/-- Embedding of processSingleNumber (src/script.js lines 191-227) as a
function from the current processedResults to the updated one. -/
def processSingleNumber (rawNumber : List Char) (options_removePlusOne : Bool)
    (options_groupByState : Bool) (res : Results) : Results :=
  let cleaned := cleanPhoneNumber rawNumber options_removePlusOne
  if isValidUSNumber cleaned then
    let areaCode := jsSubstring cleaned 0 3
    let state := getStateFromAreaCode areaCode
    let result : NumRecord :=
      { original := rawNumber, cleaned := cleaned, areaCode := some areaCode,
        state := some state, statusValid := true }
    let res' : Results :=
      { res with
        valid := res.valid ++ [result]
        stats :=
          { res.stats with
            valid := res.stats.valid + 1
            states := addToSet res.stats.states state } }
    if options_groupByState then
      { res' with byState := pushByState res'.byState state result }
    else res'
  else
    { res with
      invalid := res.invalid ++
        [{ original := rawNumber, cleaned := cleaned, areaCode := none,
           state := none, statusValid := false }],
      stats := { res.stats with invalid := res.stats.invalid + 1 } }

/-! ## Batch scheduler (src/script.js lines 112-188, 342-351) -/

/-- The processing options read at lines 127-132 of src/script.js.
The batchSize comes from parseInt and may be any integer. -/
structure Options where
  removePlusOne : Bool
  filterInvalid : Bool
  groupByState : Bool
  batchSize : Int
deriving DecidableEq

/-- The mutable state touched by a run of processInBatches:
processedResults, the global processedCount, and a ghost counter for the
blank lines skipped by processBatch (the source does not store this
number; it is tracked here to state the accounting invariant). -/
structure RunSt where
  results : Results
  processedCount : Nat
  blanksSkipped : Nat
deriving DecidableEq

/-- Embedding of processBatch (src/script.js lines 173-188). The
cancellation flag is constant during a chunk, because the source is
single-threaded and cancelProcessing can only run at the inter-chunk
yield points; the per-line check at line 175 therefore sees one fixed
value for the whole chunk. -/
def processBatch (options : Options) (cancelled : Bool) :
    List (List Char) → RunSt → RunSt
  | [], st => st
  | rawLine :: rest, st =>
    if cancelled then st
    else
      let line := jsTrim rawLine
      if line = [] then
        processBatch options cancelled rest
          { st with blanksSkipped := st.blanksSkipped + 1 }
      else
        processBatch options cancelled rest
          { st with
            results := processSingleNumber line options.removePlusOne
              options.groupByState st.results,
            processedCount := st.processedCount + 1 }

/-- The chunk lines.slice(startIdx, endIdx) of iteration i of
processInBatches (src/script.js lines 154-156), for batch size b. -/
def chunkAt (lines : List (List Char)) (b i : Nat) : List (List Char) :=
  (lines.take (min (i * b + b) lines.length)).drop (i * b)

/-- The cancellation schedule of a run: cancelAt = some k means the user
invoked cancelProcessing (src/script.js line 342) during the yield before
chunk k, so the processingCancelled flag is observed set from the check
at the top of iteration k onward; cancelAt = none means the run is never
cancelled. -/
def cancelFlagAt (cancelAt : Option Nat) (i : Nat) : Bool :=
  match cancelAt with
  | none => false
  | some k => decide (k ≤ i)

/-- The loop of processInBatches (src/script.js lines 151-167): iterate
the remaining number of batches starting at batch index i, stopping early
when the cancellation flag is observed. Returns the final state and
whether the loop exited through the cancellation break. -/
def batchLoop (lines : List (List Char)) (options : Options)
    (cancelAt : Option Nat) (b : Nat) : Nat → Nat → RunSt → RunSt × Bool
  | 0, _, st => (st, false)
  | k + 1, i, st =>
    if cancelFlagAt cancelAt i then (st, true)
    else
      batchLoop lines options cancelAt b k (i + 1)
        (processBatch options false (chunkAt lines b i) st)

/-- The value Math.ceil(lines.length / batchSize) at line 149 of
src/script.js, for a nonzero batchSize. The division is exact real
division followed by ceiling; for a positive batch size this is rounding
up, for a negative one the (nonpositive) quotient is rounded toward
zero. -/
def jsCeilDiv (len : Nat) (bs : Int) : Int :=
  if 0 < bs then ((len : Int) + bs - 1) / bs else (len : Int) / bs

/-- The totalBatches value of processInBatches. With batchSize = 0 and a
nonempty line list the JavaScript expression is Math.ceil(Infinity),
i.e. Infinity, and the loop never terminates; that case is represented by
none. With batchSize = 0 and zero lines the expression is Math.ceil(NaN),
i.e. NaN, and the comparison 0 < NaN is false, so the loop runs zero
times. -/
def totalBatchesJs (len : Nat) (bs : Int) : Option Int :=
  if bs = 0 then (if len = 0 then some 0 else none)
  else some (jsCeilDiv len bs)

/-- Outcome of one run of processInBatches: the final state, whether the
loop exited through the cancellation break, and whether finishProcessing
(the completion path, src/script.js line 169) was invoked. -/
structure RunOutcome where
  st : RunSt
  cancelObserved : Bool
  finishInvoked : Bool
deriving DecidableEq

/-- The run state prepared by startProcessing before processInBatches is
invoked (src/script.js lines 118 and 134-136): resetProcessingState
followed by stats.total := lines.length. -/
def initialRunSt (lines : List (List Char)) : RunSt :=
  { results :=
      { emptyResults with stats := { emptyResults.stats with total := lines.length } },
    processedCount := 0, blanksSkipped := 0 }

/-- Embedding of processInBatches (src/script.js lines 147-170) as
invoked by startProcessing, parameterized by the cancellation schedule.
The result none represents the non-terminating loop that arises when
totalBatches is Infinity (batchSize = 0 on a nonempty line list). Note
that finishProcessing is invoked unconditionally after the loop, also
when the loop exited through the cancellation break. -/
def processInBatches (lines : List (List Char)) (options : Options)
    (cancelAt : Option Nat) : Option RunOutcome :=
  match totalBatchesJs lines.length options.batchSize with
  | none => none
  | some t =>
    let r := batchLoop lines options cancelAt options.batchSize.toNat
      t.toNat 0 (initialRunSt lines)
    some { st := r.1, cancelObserved := r.2, finishInvoked := true }

/-! ## startProcessing guard (src/script.js lines 112-144) -/

/-- The module-level mutable state read and written by startProcessing
(src/script.js lines 1-20). -/
structure GState where
  processingActive : Bool
  processingCancelled : Bool
  currentFileContent : Option (List Char)
  results : Results
  processedCount : Nat
deriving DecidableEq

/-- Embedding of the synchronous part of startProcessing (src/script.js
lines 112-144): the guard at line 113, then the state reset and the
stats.total assignment. The returned Bool records whether a new run was
begun (processInBatches invoked). -/
def startProcessing (g : GState) (options : Options) : GState × Bool :=
  if g.currentFileContent.isNone || g.processingActive then (g, false)
  else
    let lines := splitNl (g.currentFileContent.getD [])
    ({ g with
        processingActive := true
        processingCancelled := false
        results :=
          { emptyResults with
            stats := { emptyResults.stats with total := lines.length } }
        processedCount := 0 }, true)

/-! ## Progress arithmetic (src/script.js lines 278-291) -/

/-- A JavaScript number as needed by the estimated-time-remaining
expression: a finite value (modelled as an exact rational; IEEE rounding
of finite results is not modelled, and no claim depends on it), positive
or negative infinity, or NaN. -/
inductive JsVal where
  | fin : Rat → JsVal
  | inf : JsVal
  | ninf : JsVal
  | nan : JsVal
deriving DecidableEq

/-- JavaScript subtraction on JsVal. -/
def jsSub : JsVal → JsVal → JsVal
  | .fin a, .fin b => .fin (a - b)
  | .fin _, .inf => .ninf
  | .fin _, .ninf => .inf
  | .inf, .fin _ => .inf
  | .inf, .ninf => .inf
  | .inf, .inf => .nan
  | .ninf, .fin _ => .ninf
  | .ninf, .inf => .ninf
  | .ninf, .ninf => .nan
  | .nan, _ => .nan
  | _, .nan => .nan

/-- JavaScript division on JsVal, following the IEEE rules for division
by zero: a positive finite value divided by zero is Infinity, a negative
one is -Infinity, and zero divided by zero is NaN (signed zero is not
modelled; none of the uses here produce a negative zero). -/
def jsDiv : JsVal → JsVal → JsVal
  | .fin a, .fin b =>
    if b = 0 then (if 0 < a then .inf else if a < 0 then .ninf else .nan)
    else .fin (a / b)
  | .fin _, .inf => .fin 0
  | .fin _, .ninf => .fin 0
  | .inf, .fin b => if b < 0 then .ninf else .inf
  | .inf, .ninf => .nan
  | .inf, .inf => .nan
  | .ninf, .fin b => if b < 0 then .inf else .ninf
  | .ninf, .inf => .nan
  | .ninf, .ninf => .nan
  | .nan, _ => .nan
  | _, .nan => .nan

/-- The estimated-time-remaining expression computed by updateProgressUI
at line 288 of src/script.js, with stats.total, the processed count and
the elapsed seconds as inputs:
(total - processed) / (processed / elapsed). There is no guard of any
kind around this expression in the source. -/
def updateProgressRemaining (total processed elapsed : Rat) : JsVal :=
  jsDiv (jsSub (.fin total) (.fin processed)) (jsDiv (.fin processed) (.fin elapsed))

/-! ## Summary report (src/script.js lines 437-460) -/

/-- Model of the JavaScript s.padEnd(n): append spaces up to length n
(never truncates). -/
def padEndL (n : Nat) (s : List Char) : List Char :=
  s ++ List.replicate (n - s.length) ' '

/-- Model of the JavaScript s.padStart(n): prepend spaces up to length n
(never truncates). -/
def padStartL (n : Nat) (s : List Char) : List Char :=
  List.replicate (n - s.length) ' ' ++ s

/-- The percentage string (count / valid * 100).toFixed(1) of line 455 of
src/script.js. The quotient is modelled as an exact rational and toFixed
as rounding to the nearest tenth, half away from zero, which for
nonnegative values is floor of (value * 10 + one half); the IEEE double
rounding of the intermediate quotient is not modelled. A zero valid count
gives NaN (zero count) or Infinity (positive count) under the JavaScript
evaluation, rendered by toFixed as the corresponding literal string. -/
def pctFixed1 (count valid : Nat) : List Char :=
  if valid = 0 then (if count = 0 then "NaN".data else "Infinity".data)
  else
    let tenths := (2000 * count + valid) / (2 * valid)
    (Nat.repr (tenths / 10)).data ++ ('.' :: (Nat.repr (tenths % 10)).data)

/-- One per-state line of the summary report (line 456 of src/script.js),
without the trailing newline: the state name padded to 20 characters, a
colon and a space, the record count padded to 8 characters, and the
percentage of the valid count in parentheses. -/
def fmtStateLine (state : String) (count valid : Nat) : List Char :=
  padEndL 20 state.data ++ (':' :: ' ' :: padStartL 8 (Nat.repr count).data) ++
    (' ' :: '(' :: (pctFixed1 count valid ++ ('%' :: ')' :: [])))

/-- The comparator (a, b) => b[1].length - a[1].length passed to the sort
at line 452 of src/script.js. -/
def summaryCmp (a b : String × List NumRecord) : Int :=
  (b.2.length : Int) - (a.2.length : Int)

/-- Insert an element into a list after every element the comparator does
not place strictly after it: the single step of a stable insertion
sort. -/
def insertSorted (cmp : α → α → Int) (x : α) : List α → List α
  | [] => [x]
  | y :: ys => if cmp x y < 0 then x :: y :: ys else y :: insertSorted cmp x ys

/-- Model of the JavaScript Array.prototype.sort with a consistent
comparator: the ECMAScript specification requires the result to be
sorted according to the comparator and stable, which determines it
uniquely; a stable insertion sort realizes it. -/
def jsStableSort (cmp : α → α → Int) (l : List α) : List α :=
  l.foldl (fun acc x => insertSorted cmp x acc) []

/-- The per-state block of generateSummaryReport (src/script.js lines
450-457): the byState entries sorted by the count comparator, each
rendered as its report line. -/
def generateSummaryStateLines (res : Results) : List (List Char) :=
  (jsStableSort summaryCmp res.byState).map
    (fun e => fmtStateLine e.1 e.2.length res.stats.valid)

/-- The sum of the valid count, the invalid count and the skipped blank
lines of a run state: the quantity the accounting invariant relates to
stats.total. -/
def runMeasure (st : RunSt) : Nat :=
  st.results.stats.valid + st.results.stats.invalid + st.blanksSkipped

/-! ## Helper lemmas -/

lemma ite_false_bool (c X : Bool) : (if c then false else X) = (!c && X) := by
  cases c <;> simp

lemma jsSubstring_zero_three (s : List Char) : jsSubstring s 0 3 = s.take 3 := by
  simp [jsSubstring]

lemma getD_substring36 (s : List Char) :
    (jsSubstring s 3 6).getD 0 ' ' = s.getD 3 ' ' := by
  simp only [jsSubstring, List.getD]
  rw [List.get?_drop, List.get?_take (by omega : 3 + 0 < 6)]

lemma isValidUSNumber_eq (s : List Char) :
    isValidUSNumber s =
      (!(s.length != 10) &&
       (!(s.getD 0 ' ' == '0' || s.getD 0 ' ' == '1') &&
        (isValidAreaCode (jsSubstring s 0 3) &&
         (!((jsSubstring s 3 6).getD 0 ' ' == '0' ||
            (jsSubstring s 3 6).getD 0 ' ' == '1') &&
          !(allSameDigitPattern s || sequentialPattern s ||
            repeatedTripletPattern s))))) := by
  unfold isValidUSNumber
  rw [ite_false_bool, ite_false_bool, ite_false_bool, ite_false_bool, ite_false_bool]
  simp

lemma processSingleNumber_stats (line : List Char) (rp gs : Bool) (res : Results) :
    (processSingleNumber line rp gs res).stats.valid +
        (processSingleNumber line rp gs res).stats.invalid =
      res.stats.valid + res.stats.invalid + 1 ∧
    (processSingleNumber line rp gs res).stats.total = res.stats.total := by
  simp only [processSingleNumber]
  split
  · split <;> constructor <;> simp <;> omega
  · constructor <;> simp <;> omega

lemma processBatch_stats (opts : Options) :
    ∀ (batch : List (List Char)) (st : RunSt),
      runMeasure (processBatch opts false batch st) = runMeasure st + batch.length ∧
      (processBatch opts false batch st).results.stats.total =
        st.results.stats.total := by
  intro batch
  induction batch with
  | nil => intro st; simp [processBatch]
  | cons l rest ih =>
    intro st
    simp only [processBatch, Bool.false_eq_true, if_false]
    by_cases hb : jsTrim l = []
    · rw [if_pos hb]
      obtain ⟨m1, m2⟩ := ih { st with blanksSkipped := st.blanksSkipped + 1 }
      refine ⟨?_, ?_⟩
      · rw [m1]; simp [runMeasure]; omega
      · rw [m2]
    · rw [if_neg hb]
      obtain ⟨m1, m2⟩ := ih
        { st with
          results := processSingleNumber (jsTrim l) opts.removePlusOne
            opts.groupByState st.results
          processedCount := st.processedCount + 1 }
      obtain ⟨p1, p2⟩ := processSingleNumber_stats (jsTrim l) opts.removePlusOne
        opts.groupByState st.results
      refine ⟨?_, ?_⟩
      · rw [m1]; simp [runMeasure, p1, p2]; omega
      · rw [m2]; simpa using p2

lemma chunkAt_length (lines : List (List Char)) (b i : Nat) :
    (chunkAt lines b i).length = min (i * b + b) lines.length - i * b := by
  simp [chunkAt]

lemma batchLoop_none_stats (lines : List (List Char)) (opts : Options) (b : Nat) :
    ∀ (k i : Nat) (st : RunSt),
      runMeasure (batchLoop lines opts none b k i st).1 =
        runMeasure st +
          (min ((i + k) * b) lines.length - min (i * b) lines.length) ∧
      (batchLoop lines opts none b k i st).1.results.stats.total =
        st.results.stats.total ∧
      (batchLoop lines opts none b k i st).2 = false := by
  intro k
  induction k with
  | zero => intro i st; simp [batchLoop]
  | succ k ih =>
    intro i st
    simp only [batchLoop, cancelFlagAt, Bool.false_eq_true, if_false]
    obtain ⟨h1, h2, h3⟩ := ih (i + 1) (processBatch opts false (chunkAt lines b i) st)
    obtain ⟨m1, m2⟩ := processBatch_stats opts (chunkAt lines b i) st
    refine ⟨?_, ?_, h3⟩
    · rw [h1, m1, chunkAt_length]
      have e1 : (i + 1) * b = i * b + b := by ring
      have e2 : (i + 1 + k) * b = i * b + b + k * b := by ring
      have e3 : (i + (k + 1)) * b = i * b + b + k * b := by ring
      rw [e1, e2, e3]
      generalize i * b = a
      generalize k * b = c
      omega
    · rw [h2, m2]

lemma summaryCmp_lt_iff (x y : String × List NumRecord) :
    summaryCmp x y < 0 ↔ y.2.length < x.2.length := by
  simp only [summaryCmp]
  omega

lemma mem_insertSorted (cmp : α → α → Int) (x z : α) (l : List α) :
    z ∈ insertSorted cmp x l ↔ z = x ∨ z ∈ l := by
  induction l with
  | nil => simp [insertSorted]
  | cons y ys ih =>
    simp only [insertSorted]
    split
    · simp [List.mem_cons]
    · simp only [List.mem_cons, ih]
      tauto

lemma insertSorted_perm (cmp : α → α → Int) (x : α) (l : List α) :
    List.Perm (insertSorted cmp x l) (x :: l) := by
  induction l with
  | nil => exact List.Perm.refl _
  | cons y ys ih =>
    simp only [insertSorted]
    split
    · exact List.Perm.refl _
    · exact (ih.cons y).trans (List.Perm.swap x y ys)

lemma insertSorted_sorted (x : String × List NumRecord)
    (l : List (String × List NumRecord))
    (h : List.Pairwise (fun a b => b.2.length ≤ a.2.length) l) :
    List.Pairwise (fun a b => b.2.length ≤ a.2.length)
      (insertSorted summaryCmp x l) := by
  induction l with
  | nil => simp [insertSorted]
  | cons y ys ih =>
    obtain ⟨hy, hys⟩ := List.pairwise_cons.mp h
    simp only [insertSorted]
    split
    · have hxy : y.2.length < x.2.length := (summaryCmp_lt_iff x y).mp (by assumption)
      refine List.Pairwise.cons ?_ h
      intro z hz
      rcases List.mem_cons.mp hz with rfl | hz
      · omega
      · have := hy z hz
        omega
    · have hxy : x.2.length ≤ y.2.length := by
        have hlt : ¬ summaryCmp x y < 0 := by assumption
        rw [summaryCmp_lt_iff] at hlt
        omega
      refine List.Pairwise.cons ?_ (ih hys)
      intro z hz
      rcases (mem_insertSorted summaryCmp x z ys).mp hz with rfl | hz
      · exact hxy
      · exact hy z hz

lemma filter_eq_nil_of_head_lt (k : Nat) (y : String × List NumRecord)
    (ys : List (String × List NumRecord))
    (h : List.Pairwise (fun a b => b.2.length ≤ a.2.length) (y :: ys))
    (hk : y.2.length < k) :
    (y :: ys).filter (fun e => e.2.length == k) = [] := by
  obtain ⟨hy, _⟩ := List.pairwise_cons.mp h
  rw [List.filter_eq_nil]
  intro a ha
  rcases List.mem_cons.mp ha with rfl | ha
  · simp
    omega
  · have := hy a ha
    simp
    omega

lemma filter_insertSorted (k : Nat) (x : String × List NumRecord)
    (l : List (String × List NumRecord))
    (h : List.Pairwise (fun a b => b.2.length ≤ a.2.length) l) :
    (insertSorted summaryCmp x l).filter (fun e => e.2.length == k) =
      if x.2.length == k then
        l.filter (fun e => e.2.length == k) ++ [x]
      else l.filter (fun e => e.2.length == k) := by
  induction l with
  | nil =>
    cases hpx : (x.2.length == k) <;> simp [insertSorted, List.filter, hpx]
  | cons y ys ih =>
    obtain ⟨hy, hys⟩ := List.pairwise_cons.mp h
    simp only [insertSorted]
    by_cases h1 : summaryCmp x y < 0
    · rw [if_pos h1]
      have hxy : y.2.length < x.2.length := (summaryCmp_lt_iff x y).mp h1
      by_cases hpx : (x.2.length == k) = true
      · have hyk : y.2.length < k := by
          have : x.2.length = k := by simpa using hpx
          omega
        rw [if_pos hpx, List.filter_cons, if_pos hpx,
          filter_eq_nil_of_head_lt k y ys h hyk]
        simp
      · rw [if_neg hpx, List.filter_cons, if_neg hpx]
    · rw [if_neg h1]
      rw [List.filter_cons, List.filter_cons]
      rw [ih hys]
      by_cases hpy : (y.2.length == k) = true
      · rw [if_pos hpy, if_pos hpy]
        split <;> rfl
      · rw [if_neg hpy, if_neg hpy]

lemma foldl_insert_sorted :
    ∀ (l acc : List (String × List NumRecord)),
      List.Pairwise (fun a b => b.2.length ≤ a.2.length) acc →
      List.Pairwise (fun a b => b.2.length ≤ a.2.length)
        (l.foldl (fun acc x => insertSorted summaryCmp x acc) acc) := by
  intro l
  induction l with
  | nil => intro acc h; exact h
  | cons x xs ih =>
    intro acc h
    exact ih _ (insertSorted_sorted x acc h)

lemma foldl_insert_perm :
    ∀ (l acc : List (String × List NumRecord)),
      List.Perm (l.foldl (fun acc x => insertSorted summaryCmp x acc) acc)
        (acc ++ l) := by
  intro l
  induction l with
  | nil => intro acc; simp
  | cons x xs ih =>
    intro acc
    refine (ih (insertSorted summaryCmp x acc)).trans ?_
    have h1 : List.Perm (insertSorted summaryCmp x acc ++ xs) ((x :: acc) ++ xs) :=
      (insertSorted_perm summaryCmp x acc).append_right xs
    refine h1.trans ?_
    simp only [List.cons_append]
    exact (List.perm_middle).symm

lemma foldl_insert_filter (k : Nat) :
    ∀ (l acc : List (String × List NumRecord)),
      List.Pairwise (fun a b => b.2.length ≤ a.2.length) acc →
      (l.foldl (fun acc x => insertSorted summaryCmp x acc) acc).filter
          (fun e => e.2.length == k) =
        acc.filter (fun e => e.2.length == k) ++
          l.filter (fun e => e.2.length == k) := by
  intro l
  induction l with
  | nil => intro acc h; simp
  | cons x xs ih =>
    intro acc h
    rw [List.foldl_cons, ih _ (insertSorted_sorted x acc h),
      filter_insertSorted k x acc h, List.filter_cons]
    by_cases hpx : (x.2.length == k) = true
    · rw [if_pos hpx, if_pos hpx]
      simp
    · rw [if_neg hpx, if_neg hpx]

/-! ## Claim theorems -/

/-- C1: for every input string s, isValidUSNumber s is true exactly when
s has exactly 10 characters, its first character is neither 0 nor 1, its
first three characters pass the area-code check, its fourth character
(the first of the exchange code) is neither 0 nor 1, and s matches none
of the three anti-patterns; in particular, every string whose length is
not 10 is rejected. The area-code check is the one modelled from the
spec, since its implementation is absent from the source. -/
theorem isValidUSNumber_characterization :
    (∀ s : List Char,
      isValidUSNumber s = true ↔
        (s.length = 10 ∧ s.getD 0 ' ' ≠ '0' ∧ s.getD 0 ' ' ≠ '1' ∧
         isValidAreaCode (s.take 3) = true ∧
         s.getD 3 ' ' ≠ '0' ∧ s.getD 3 ' ' ≠ '1' ∧
         allSameDigitPattern s = false ∧ sequentialPattern s = false ∧
         repeatedTripletPattern s = false)) ∧
    (∀ s : List Char, s.length ≠ 10 → isValidUSNumber s = false) := by
  constructor
  · intro s
    rw [isValidUSNumber_eq, jsSubstring_zero_three, getD_substring36]
    simp [Bool.or_eq_true, not_or]
    tauto
  · intro s h
    simp [isValidUSNumber, h]

/-- Witness for C1: the characterization applied to the concrete
3-character string 123, whose length is not 10, yields rejection. -/
theorem isValidUSNumber_characterization_witness :
    ("123".data.length ≠ 10) ∧ isValidUSNumber "123".data = false :=
  ⟨by decide, isValidUSNumber_characterization.2 "123".data (by decide)⟩

/-- C2 counterexample: no string of length 10 matches the anchored
repeated-triplet reference pattern, which only matches 9-character
strings; hence no 10-digit input is ever rejected by that filter,
refuting the claimed existence. -/
theorem repeatedTriplet_rejects_no_ten_char_string :
    ¬ ∃ s : List Char, s.length = 10 ∧ repeatedTripletPattern s = true := by
  rintro ⟨s, h10, hp⟩
  simp [repeatedTripletPattern, h10] at hp

/-- C2 amended: the repeated-triplet anti-pattern filter is inert:
removing it from isValidUSNumber leaves the function extensionally
unchanged, because the anchored 9-character pattern cannot match the
10-character string it is tested against. -/
theorem isValidUSNumber_triplet_filter_inert (s : List Char) :
    isValidUSNumberNoTriplet s = isValidUSNumber s := by
  by_cases h : s.length = 10
  · have htrip : repeatedTripletPattern s = false := by
      simp [repeatedTripletPattern, h]
    simp only [isValidUSNumberNoTriplet, isValidUSNumber, htrip, Bool.or_false]
  · have h1 : (s.length != 10) = true := by simp [h]
    simp [isValidUSNumberNoTriplet, isValidUSNumber, h1]

/-- C3: contrary to the claim, the completion path is NOT taken only on
exhausting all chunks: processInBatches invokes finishProcessing
unconditionally after its loop, so a run whose loop exits through the
cancellation break still reaches the completion path. Concretely, a
2-line run with batch size 1 cancelled at the boundary before chunk 1
observes the cancellation, stops after 1 processed line, and still has
finishProcessing invoked. -/
theorem processInBatches_completes_despite_cancellation :
    (processInBatches ["2025551234".data, "2025551234".data]
      { removePlusOne := false, filterInvalid := false, groupByState := false,
        batchSize := 1 } (some 1)).map
      (fun o => (o.cancelObserved, o.finishInvoked, o.st.processedCount)) =
      some (true, true, 1) := by
  decide

/-- C4: contrary to the claim, startProcessing and processInBatches
perform no validation of batchSize at all. With batchSize = -1 on a
5-line input the run starts and immediately reaches the completion path
with zero lines processed and no error surfaced, and with batchSize = 0
the loop never terminates (totalBatches is Infinity, modelled as the
result none). -/
theorem processInBatches_ignores_nonpositive_batchSize :
    ((processInBatches
        ["2025551234".data, "a".data, "b".data, "c".data, "d".data]
        { removePlusOne := false, filterInvalid := false, groupByState := false,
          batchSize := -1 } none).map
      (fun o => (o.st.results.stats.valid, o.st.results.stats.invalid,
        o.st.processedCount, o.finishInvoked, o.cancelObserved)) =
      some (0, 0, 0, true, false)) ∧
    processInBatches
        ["2025551234".data, "a".data, "b".data, "c".data, "d".data]
        { removePlusOne := false, filterInvalid := false, groupByState := false,
          batchSize := 0 } none = none := by
  constructor
  · decide
  · decide

/-- C5 counterexample: the accounting equality fails for a cancelled run.
A 2-line run with batch size 1, cancelled at the boundary before chunk 1,
ends with one valid record, no invalid records and no skipped blanks,
while stats.total is 2. -/
theorem run_accounting_fails_when_cancelled :
    (processInBatches ["2025551234".data, "2025551234".data]
      { removePlusOne := false, filterInvalid := false, groupByState := false,
        batchSize := 1 } (some 1)).map
      (fun o => (o.st.results.stats.valid + o.st.results.stats.invalid +
        o.st.blanksSkipped, o.st.results.stats.total)) = some (1, 2) ∧
    (1 : Nat) ≠ 2 := by
  constructor
  · decide
  · decide

/-- C5 amended: for every run with a positive batch size that runs to
completion without cancellation, the valid count plus the invalid count
plus the number of skipped blank lines equals stats.total, which is the
number of input lines set at run start. -/
theorem run_accounting_holds_when_completed (lines : List (List Char))
    (opts : Options) (h : 0 < opts.batchSize) :
    (processInBatches lines opts none).map
      (fun o => (o.st.results.stats.valid + o.st.results.stats.invalid +
        o.st.blanksSkipped, o.st.results.stats.total)) =
      some (lines.length, lines.length) := by
  have hbs : ¬ opts.batchSize = 0 := by omega
  simp only [processInBatches, totalBatchesJs, if_neg hbs, Option.map_some']
  set b := opts.batchSize.toNat with hbdef
  have hbpos : 0 < b := by omega
  have htv : (jsCeilDiv lines.length opts.batchSize).toNat =
      (lines.length + b - 1) / b := by
    rw [jsCeilDiv, if_pos h]
    have hcast : opts.batchSize = (b : Int) := by omega
    rw [hcast]
    have hnum : ((lines.length : Int) + (b : Int) - 1) =
        ((lines.length + b - 1 : Nat) : Int) := by omega
    rw [hnum]
    rw [show ((lines.length + b - 1 : Nat) : Int) / (b : Int) =
        (((lines.length + b - 1) / b : Nat) : Int) from by exact_mod_cast rfl]
    exact Int.toNat_natCast _
  have htb : lines.length ≤ ((lines.length + b - 1) / b) * b := by
    have hd := Nat.div_add_mod (lines.length + b - 1) b
    have hm : (lines.length + b - 1) % b < b := Nat.mod_lt _ hbpos
    rw [Nat.mul_comm] at hd
    generalize ((lines.length + b - 1) / b) * b = q at *
    omega
  obtain ⟨h1, h2, h3⟩ := batchLoop_none_stats lines opts b
    ((jsCeilDiv lines.length opts.batchSize).toNat) 0 (initialRunSt lines)
  rw [htv] at h1 h2
  have hm1 : runMeasure (initialRunSt lines) = 0 := by
    simp [runMeasure, initialRunSt, emptyResults]
  have ht2 : (initialRunSt lines).results.stats.total = lines.length := by
    simp [initialRunSt, emptyResults]
  rw [htv]
  have hfin : runMeasure (batchLoop lines opts none b
      ((lines.length + b - 1) / b) 0 (initialRunSt lines)).1 = lines.length := by
    rw [h1, hm1]
    have e : (0 + (lines.length + b - 1) / b) * b =
        ((lines.length + b - 1) / b) * b := by
      ring
    rw [e, Nat.zero_mul]
    generalize hq : ((lines.length + b - 1) / b) * b = q at htb ⊢
    omega
  simp only [Option.some.injEq, Prod.mk.injEq]
  constructor
  · simpa [runMeasure] using hfin
  · rw [h2, ht2]

/-- Witness for C5 amended: a concrete 3-line run (one valid number, one
blank line, one invalid line) with batch size 2 satisfies the accounting
equality with total 3. -/
theorem run_accounting_holds_when_completed_witness :
    (processInBatches ["2025551234".data, "".data, "abc".data]
      { removePlusOne := false, filterInvalid := false, groupByState := false,
        batchSize := 2 } none).map
      (fun o => (o.st.results.stats.valid + o.st.results.stats.invalid +
        o.st.blanksSkipped, o.st.results.stats.total)) = some (3, 3) :=
  run_accounting_holds_when_completed ["2025551234".data, "".data, "abc".data]
    { removePlusOne := false, filterInvalid := false, groupByState := false,
      batchSize := 2 } (by decide)

/-- C6 counterexample: ties between states with equal record counts are
NOT broken by state name ascending. A run over one Texas number followed
by one Alabama number (equal counts) produces the Texas report line
before the Alabama line, while Alabama precedes Texas in ascending name
order. -/
theorem summary_tiebreak_not_by_name :
    (processInBatches ["2145551234".data, "2055551234".data]
      { removePlusOne := false, filterInvalid := false, groupByState := true,
        batchSize := 10 } none).map
      (fun o => generateSummaryStateLines o.st.results) =
      some ["Texas               :        1 (50.0%)".data,
            "Alabama             :        1 (50.0%)".data] ∧
    "Alabama".data < "Texas".data := by
  constructor
  · decide
  · decide

/-- C6 amended: the per-state summary lines are the byState entries
sorted by descending record count with ties left in the insertion order
of the byState map (the sort is stable), each line formatted as the state
name padded to 20 characters, the count padded to 8 characters, and the
percentage of the valid count with 1 decimal place. Sortedness is the
pairwise descending-count property; stability is expressed by the sorted
entries filtering to the original entries at every fixed count. -/
theorem summary_sorted_by_count_stable (res : Results) :
    generateSummaryStateLines res =
      (jsStableSort summaryCmp res.byState).map
        (fun e => fmtStateLine e.1 e.2.length res.stats.valid) ∧
    List.Perm (jsStableSort summaryCmp res.byState) res.byState ∧
    List.Pairwise (fun a b => b.2.length ≤ a.2.length)
      (jsStableSort summaryCmp res.byState) ∧
    ∀ k : Nat,
      (jsStableSort summaryCmp res.byState).filter (fun e => e.2.length == k) =
        res.byState.filter (fun e => e.2.length == k) := by
  refine ⟨rfl, ?_, ?_, ?_⟩
  · simpa using foldl_insert_perm res.byState []
  · exact foldl_insert_sorted res.byState [] (List.Pairwise.nil)
  · intro k
    simpa using foldl_insert_filter k res.byState [] (List.Pairwise.nil)

/-- C7: contrary to the claim, the estimated-time-remaining expression is
not guarded: whenever the processed count is 0 (and the elapsed time and
total are positive), the computed value is Infinity, not a sentinel. -/
theorem updateProgressRemaining_unguarded (total elapsed : Rat)
    (ht : 0 < total) (he : 0 < elapsed) :
    updateProgressRemaining total 0 elapsed = JsVal.inf := by
  unfold updateProgressRemaining
  simp [jsDiv, jsSub, zero_div, sub_zero, ne_of_gt he, ht]

/-- Witness for C7: with total 5, processed 0 and elapsed 1 second the
expression evaluates to Infinity. -/
theorem updateProgressRemaining_unguarded_witness :
    updateProgressRemaining 5 0 1 = JsVal.inf :=
  updateProgressRemaining_unguarded 5 1 (by norm_num) (by norm_num)

/-- C8: calling startProcessing while a run is active is a no-op: the
guard returns immediately, the global state is unchanged and no new run
is begun. -/
theorem startProcessing_noop_when_active (g : GState) (o : Options)
    (h : g.processingActive = true) :
    startProcessing g o = (g, false) := by
  simp [startProcessing, h]

/-- Witness for C8: a concrete active global state is returned unchanged
by startProcessing. -/
theorem startProcessing_noop_when_active_witness :
    startProcessing
      { processingActive := true, processingCancelled := false,
        currentFileContent := some ['5'], results := emptyResults,
        processedCount := 0 }
      { removePlusOne := false, filterInvalid := false, groupByState := false,
        batchSize := 500 } =
      ({ processingActive := true, processingCancelled := false,
         currentFileContent := some ['5'], results := emptyResults,
         processedCount := 0 }, false) :=
  startProcessing_noop_when_active _ _ rfl

/-- C9 counterexample: isValidUSNumber does not force its argument to be
digit-only, so the parenthetical inclusion of the claim fails: the
10-character string 202bcdefgh is accepted by isValidUSNumber, yet
cleanPhoneNumber does not map it to itself for either flag value. -/
theorem cleanPhoneNumber_not_identity_on_a_valid_input :
    isValidUSNumber "202bcdefgh".data = true ∧
    cleanPhoneNumber "202bcdefgh".data true ≠ "202bcdefgh".data ∧
    cleanPhoneNumber "202bcdefgh".data false ≠ "202bcdefgh".data := by
  refine ⟨?_, ?_, ?_⟩ <;> decide

/-- C9 amended: normalization is the identity on every digit-only string
of length exactly 10, for both values of the strip-country-code flag. -/
theorem cleanPhoneNumber_identity_on_ten_digits (s : List Char) (b : Bool)
    (hd : ∀ c ∈ s, c.isDigit = true) (hl : s.length = 10) :
    cleanPhoneNumber s b = s := by
  simp only [cleanPhoneNumber]
  rw [List.filter_eq_self.mpr hd]
  simp [hl]

/-- Witness for C9 amended: the concrete 10-digit string 6125544556 is a
fixed point of cleanPhoneNumber. -/
theorem cleanPhoneNumber_identity_on_ten_digits_witness :
    cleanPhoneNumber "6125544556".data true = "6125544556".data :=
  cleanPhoneNumber_identity_on_ten_digits "6125544556".data true
    (by decide) (by decide)

/-- C10: the sequential anti-pattern test is redundant: removing it from
isValidUSNumber leaves the function extensionally unchanged, because the
only string the pattern matches begins with the digit 1 and is already
rejected by the leading-digit rule. -/
theorem isValidUSNumber_sequential_filter_redundant (s : List Char) :
    isValidUSNumberNoSeq s = isValidUSNumber s := by
  by_cases hs : s = "1234567890".data
  · subst hs
    decide
  · have hseq : sequentialPattern s = false := by
      simp [sequentialPattern, hs]
    simp only [isValidUSNumberNoSeq, isValidUSNumber, hseq, Bool.or_false,
      Bool.false_or]
